import Mathlib

/-!
Verification of `job_module.py`, a pandas/SQLite pipeline that loads a CSV of
job postings, cleans it (`preprocess_data`, `clean_salary`), stores it in a
SQLite table `jobs` (`create_database`), writes a three-block text report
(`run_sql_queries`) and splits the stored table by a column
(`split_table_by_column_sql`).

Modelling conventions:
* Python cell values are `PValue`: missing (`None`/`NaN`), an int, a float or
  a string.  Python floats are modelled as exact rationals (`ℚ`); none of the
  verified properties depends on binary rounding.
* A pandas `DataFrame` is a `Table`: a row count plus ordered named columns.
* SQLite values are `SQLVal`; the stored relation `jobs` is an `SRel`.
-/

namespace JobModule

/-- A Python cell value as pandas sees it: missing (`None` / `NaN`),
an integer, a float, or a string. -/
inductive PValue where
  | null : PValue
  | int (n : Int) : PValue
  | float (q : ℚ) : PValue
  | str (s : String) : PValue
deriving DecidableEq, Repr

/-- `pd.isna` on a scalar: true exactly for the missing marker. -/
def PValue.isna : PValue → Bool
  | .null => true
  | _ => false

def PValue.isInt : PValue → Bool
  | .int _ => true
  | _ => false

def PValue.isStr : PValue → Bool
  | .str _ => true
  | _ => false

/-- Characters matched by `[\d,]` in the regex `\d[\d,]*` of `clean_salary`
(ASCII digits suffice for the data in scope). -/
def tokChar (c : Char) : Bool := c.isDigit || c == ','

/-- Fuelled scanner behind `findTokens`; the fuel only serves structural
recursion and is irrelevant once it covers the list length
(`findTokensF_congr`). -/
def findTokensF : ℕ → List Char → List (List Char)
  | 0, _ => []
  | _ + 1, [] => []
  | fuel + 1, c :: rest =>
    if c.isDigit then
      (c :: rest.takeWhile tokChar) :: findTokensF fuel (rest.dropWhile tokChar)
    else
      findTokensF fuel rest

/-- `re.findall(r'\d[\d,]*', s)` on the character list of `s`: every maximal
match of the regex, left to right.  A match starts at a digit and greedily
extends over digits and commas. -/
def findTokens (l : List Char) : List (List Char) := findTokensF l.length l

/-- `int(tok.replace(",", ""))`: drop the commas and read the remaining
characters as a decimal integer; `none` models `ValueError`. -/
def parseTok (tok : List Char) : Option Nat :=
  let digits := tok.filter (· ≠ ',')
  if digits = [] ∨ ¬ digits.all Char.isDigit then none
  else some (digits.foldl (fun acc c => 10 * acc + (c.toNat - '0'.toNat)) 0)

/-- `clean_salary` from `job_module.py`: `None` for a missing or non-string
value; otherwise find all matches of `\d[\d,]*`, strip commas, parse each as
an int (`None` on `ValueError`) and return their arithmetic mean
(`None` when no match).  Python's float mean is modelled exactly in `ℚ`. -/
def clean_salary : PValue → Option ℚ
  | .str s =>
    let toks := findTokens s.data
    if toks = [] then none
    else
      match toks.mapM parseTok with
      | none => none
      | some ns => some ((ns.map (fun n : ℕ => (n : ℚ))).sum / ns.length)
  | _ => none

/-! ### The spec's salary algorithm, written from the spec's words

"for each value, if missing or non-text, result is absent. Otherwise extract
every maximal run of digits optionally containing embedded commas (thousand
separators) via a left-to-right scan; if none found, result is absent. Strip
commas and parse each run as an integer; if any run fails to parse, result is
absent. Final value is the arithmetic mean of all extracted integers."

The scan is phrased as a single left-to-right pass carrying the run under
construction, to be compared with the regex-`findall` form above. -/

/-- Left-to-right scan: `cur = some t` means a run `t` (a digit followed by
digits/commas) is open; a character outside the run's alphabet closes it, a
digit opens a new one. -/
def specScan : Option (List Char) → List Char → List (List Char)
  | none, [] => []
  | some t, [] => [t]
  | none, c :: rest =>
    if c.isDigit then specScan (some [c]) rest else specScan none rest
  | some t, c :: rest =>
    if tokChar c then specScan (some (t ++ [c])) rest
    else t :: specScan none (c :: rest)
termination_by cur l => (l.length, if cur.isSome then 1 else 0)
decreasing_by
  · simp [Prod.lex_iff]
  · simp [Prod.lex_iff]
  · simp [Prod.lex_iff]
  · simp [Prod.lex_iff]

/-- Modelled from the spec: the maximal runs of digits with optional embedded
commas, extracted by a left-to-right scan. -/
def specTokens (s : String) : List (List Char) := specScan none s.data

/-- Modelled from the spec: the salary-normalization algorithm of §4.2 —
absent for missing/non-text, else the mean of the comma-stripped integer
parses of all extracted runs, absent when no run is found or a parse fails. -/
def spec_clean_salary : PValue → Option ℚ
  | .str s =>
    let runs := specTokens s
    if runs = [] then none
    else
      match runs.mapM parseTok with
      | none => none
      | some ns => some ((ns.map (fun n : ℕ => (n : ℚ))).sum / ns.length)
  | _ => none

/-! ### Tables and `preprocess_data`

A pandas `DataFrame` is modelled as a row count plus ordered named columns.
`preprocess_data` prunes near-empty columns, checks the required columns,
derives `clean_salary` and normalizes `seniority_level`. -/

/-- An in-memory pandas `DataFrame`: a row count (`len(df)`) and the ordered
list of named columns. -/
structure Table where
  nRows : ℕ
  cols : List (String × List PValue)
deriving DecidableEq, Repr

/-- `df[col].isna().sum()`: how many values of a column are missing. -/
def nullCount (vs : List PValue) : ℕ := (vs.filter (fun v => v.isna)).length

/-- The drop predicate of the pruning step:
`df[col].isna().sum()/n_rows > threshold` with `threshold = 0.9`.
`isna().sum()` is a `numpy.int64` scalar, so for `n_rows = 0` the division
does not raise `ZeroDivisionError`: numpy emits a `RuntimeWarning` and yields
`nan` (`0/0`, the count being `0` on a zero-row column), and `nan > 0.9` is
`False`.  The rational convention `0/0 = 0` gives the same branch, so the
predicate below is faithful for every row count. -/
def dropCol (nRows : ℕ) (vs : List PValue) : Prop :=
  ((nullCount vs : ℚ) / (nRows : ℚ)) > 9 / 10

instance (nRows : ℕ) (vs : List PValue) : Decidable (dropCol nRows vs) :=
  decidable_of_iff (0 < nRows ∧ 10 * nullCount vs > 9 * nRows) (by
    unfold dropCol
    rcases Nat.eq_zero_or_pos nRows with h | h
    · subst h
      norm_num
    · have hn : (0 : ℚ) < nRows := by exact_mod_cast h
      simp only [gt_iff_lt]
      rw [div_lt_div_iff₀ (by norm_num) hn]
      constructor
      · rintro ⟨-, h10⟩
        exact_mod_cast Nat.lt_of_lt_of_le h10 (by omega)
      · intro hlt
        have h9 : 9 * nRows < nullCount vs * 10 := by exact_mod_cast hlt
        exact ⟨h, by omega⟩)

/-- The pruning step of `preprocess_data`: compute `to_drop` and
`df.drop(columns=to_drop)`, i.e. keep, in order, the columns not dropped. -/
def pruneColumns (t : Table) : Table :=
  { nRows := t.nRows
    cols := t.cols.filter (fun c => ¬ dropCol t.nRows c.2) }

def colNames (t : Table) : List String := t.cols.map Prod.fst

/-- `df[name]`: the values of the first column called `name`, if present. -/
def getCol (t : Table) (name : String) : Option (List PValue) :=
  (t.cols.find? (fun c => c.1 == name)).map Prod.snd

/-- `required_columns` of `preprocess_data`. -/
def requiredColumns : List String := ["salary", "seniority_level", "location"]

/-- `missing = [col for col in required_columns if col not in df.columns]`. -/
def requiredMissing (t : Table) : List String :=
  requiredColumns.filter (fun r => ¬ r ∈ colNames t)

/-- The value stored by `df["clean_salary"] = df["salary"].apply(clean_salary)`
for one row: the float, or the missing marker for `None`. -/
def toPV : Option ℚ → PValue
  | none => .null
  | some q => .float q

/-- `df["clean_salary"]` as computed from the (pruned) table's `salary`
column. -/
def cleanSalaryCol (t : Table) : List PValue :=
  ((getCol t "salary").getD []).map (fun v => toPV (clean_salary v))

/-- `df[name] = vs`: replace the column in place when it exists, else append
it on the right, as pandas column assignment does. -/
def setCol (t : Table) (name : String) (vs : List PValue) : Table :=
  { nRows := t.nRows
    cols :=
      if t.cols.any (fun c => c.1 == name) then
        t.cols.map (fun c => if c.1 == name then (name, vs) else c)
      else t.cols ++ [(name, vs)] }

/-- The pandas dtypes relevant to `create_database`.  A column of strings
(or mixed content) is `object`; `astype("category")` also fails both the
`is_integer_dtype` and `is_float_dtype` tests, and its values here are
strings, so it is covered by `object`. -/
inductive Dtype where
  | int64 : Dtype
  | float64 : Dtype
  | object : Dtype
deriving DecidableEq, Repr

/-- The dtype pandas gives a column holding these values: any string makes it
`object`; an all-integer column with no missing value is `int64`; otherwise
(floats and/or missing values, including the all-missing column) `float64` —
a missing value forces the floating dtype even when every present value is an
integer. -/
def inferDtype (vs : List PValue) : Dtype :=
  if vs.any (fun v => v.isStr) then .object
  else if ¬ vs = [] ∧ vs.all (fun v => v.isInt) then .int64
  else .float64

/-- `df["seniority_level"].str.strip().str.lower()` on one cell of an
`object`-dtype column: pandas `.str` methods map its non-string entries to
`NaN`.  (`astype("category")` keeps the values and only changes the dtype;
the accessor's dtype precondition itself is checked in `preprocess_data`.) -/
def normSeniority : PValue → PValue
  | .str s => .str s.trim.toLower
  | _ => .null

/-- The failures `preprocess_data` can raise: `KeyError` on missing required
columns (the spec's `MissingColumnsError`, carrying the missing names in
`required_columns` order), `ValueError` when every cleaned salary is missing
(the spec's `AllSalariesMissingError`), and the `AttributeError` pandas'
`.str` accessor raises on a `seniority_level` column whose dtype is not
`object` — an out-of-taxonomy failure the spec does not mention. -/
inductive PError where
  | missingColumns (cols : List String) : PError
  | allSalariesMissing : PError
  | strAccessorError : PError
deriving DecidableEq, Repr

instance {e a : Type} [DecidableEq e] [DecidableEq a] :
    DecidableEq (Except e a)
  | .ok x, .ok y => decidable_of_iff (x = y) (by simp)
  | .error x, .error y => decidable_of_iff (x = y) (by simp)
  | .ok _, .error _ => isFalse (by simp)
  | .error _, .ok _ => isFalse (by simp)

/-- `preprocess_data` from `job_module.py`: prune columns with more than 90%
missing values, check the required columns, derive `clean_salary` from
`salary`, fail when every derived salary is missing, then normalize
`seniority_level`.  The normalization step `df["seniority_level"].str...`
uses pandas' `.str` accessor, which raises `AttributeError` unless the
column's dtype is `object` (in this value model: unless the column holds at
least one string, `inferDtype`); on an `object` column it strips and lowers
the strings and turns non-string entries into `NaN`.  The all-missing salary
check precedes the accessor, so a zero-row table still fails with
`AllSalariesMissingError` before this line. -/
def preprocess_data (t : Table) : Except PError Table :=
  let t1 := pruneColumns t
  let missing := requiredMissing t1
  if missing ≠ [] then .error (.missingColumns missing)
  else
    let cleaned := cleanSalaryCol t1
    let t2 := setCol t1 "clean_salary" cleaned
    if cleaned.all (fun v => v.isna) then .error .allSalariesMissing
    else
      let sen := (getCol t2 "seniority_level").getD []
      if inferDtype sen = .object then
        .ok (setCol t2 "seniority_level" (sen.map normSeniority))
      else .error .strAccessorError

/-! ### Concrete tables used as witnesses and counterexamples -/

/-- A 2-row table: column `a` fully missing (fraction 1 > 0.9, dropped),
column `b` half missing (kept), plus the three required columns. -/
def tblPrune : Table :=
  { nRows := 2
    cols := [("a", [.null, .null]),
             ("b", [.int 1, .null]),
             ("salary", [.str "$40,000", .str "n/a"]),
             ("seniority_level", [.str " Senior ", .str "junior"]),
             ("location", [.str "Berlin", .str "Paris"])] }

/-- A 1-row table with no `location` column: the required-column check must
fail naming exactly `location`. -/
def tblNoLocation : Table :=
  { nRows := 1
    cols := [("salary", [.str "100"]),
             ("seniority_level", [.str "junior"])] }

/-- A 2-row table whose salaries are all malformed. -/
def tblBadSalaries : Table :=
  { nRows := 2
    cols := [("salary", [.str "n/a", .null]),
             ("seniority_level", [.str "junior", .str "senior"]),
             ("location", [.str "Berlin", .str "Paris"])] }

/-- A 1-row table whose `seniority_level` column is numeric (`int64` from
CSV), with a parseable salary: pandas' `.str` accessor raises on it. -/
def tblIntSeniority : Table :=
  { nRows := 1
    cols := [("salary", [.str "€100"]),
             ("seniority_level", [.int 1]),
             ("location", [.str "x"])] }

/-- A zero-row table holding the three required (empty) columns. -/
def tblZeroRows : Table :=
  { nRows := 0
    cols := [("salary", []), ("seniority_level", []), ("location", [])] }


/-! ### The SQLite layer: `create_database`, `run_sql_queries`,
`split_table_by_column_sql`

SQLite storage values are `SQLVal`; the single relation `jobs` is an `SRel`.
`GROUP BY` and `SELECT DISTINCT` without `ORDER BY` leave the output order
unspecified; the model uses first-occurrence order, and every concrete input
below is arranged so that first-occurrence order and sorted-by-key order
coincide. -/

/-- A SQLite storage value: `NULL`, a number (`INTEGER`/`REAL` storage,
modelled exactly), or `TEXT`. -/
inductive SQLVal where
  | null : SQLVal
  | num (q : ℚ) : SQLVal
  | text (s : String) : SQLVal
deriving DecidableEq, Repr

/-- How a parameterised `INSERT` binds a Python value. -/
def toSQL : PValue → SQLVal
  | .null => .null
  | .int n => .num n
  | .float q => .num q
  | .str s => .text s

/-- The stored relation `jobs`: column names and rows in insertion order. -/
structure SRel where
  names : List String
  rows : List (List SQLVal)
deriving DecidableEq, Repr

/-- A SQLite column type of the generated `CREATE TABLE jobs (...)`. -/
inductive SqlType where
  | integer : SqlType
  | real : SqlType
  | text : SqlType
deriving DecidableEq, Repr

/-- The loop body of `create_database`: `INTEGER` when
`pd.api.types.is_integer_dtype`, `REAL` when `is_float_dtype`, else
`TEXT`. -/
def sqlTypeOf : Dtype → SqlType
  | .int64 => .integer
  | .float64 => .real
  | .object => .text

/-- The SQLite type `create_database` declares for a column's values. -/
def colTypeOf (vs : List PValue) : SqlType := sqlTypeOf (inferDtype vs)

/-- The special case at the head of `create_database`: if a `salary` column
exists and every value is missing, drop it (`df.drop(columns=["salary"])`)
before the schema is inferred. -/
def dropAllNullSalary (t : Table) : Table :=
  match getCol t "salary" with
  | some vs =>
    if vs.all (fun v => v.isna) then
      { nRows := t.nRows
        cols := t.cols.filter (fun c => ¬ c.1 = "salary") }
    else t
  | none => t

/-- The schema of `CREATE TABLE jobs (...)`: name and type per surviving
column, in column order. -/
def jobsSchema (t : Table) : List (String × SqlType) :=
  (dropAllNullSalary t).cols.map (fun c => (c.1, colTypeOf c.2))

/-- The relation built by `create_database`'s insert loop: one row per input
row, in input order, each binding every column's value. -/
def buildRel (t : Table) : SRel :=
  let t1 := dropAllNullSalary t
  { names := t1.cols.map Prod.fst
    rows := (List.range t1.nRows).map
      (fun i => t1.cols.map (fun c => toSQL (c.2.getD i .null))) }

/-- Fuelled first-occurrence deduplication behind `distincts`. -/
def distinctsF {a : Type} [DecidableEq a] : ℕ → List a → List a
  | 0, _ => []
  | _ + 1, [] => []
  | n + 1, x :: l => x :: distinctsF n (l.filter (fun y => ¬ y = x))

/-- The distinct values of a list, first occurrence first: the scan order of
`SELECT DISTINCT` / `GROUP BY` (unspecified by SQLite without `ORDER BY`). -/
def distincts {a : Type} [DecidableEq a] (l : List a) : List a :=
  distinctsF l.length l

/-- Index of a column in the relation, for `SELECT`ing it by name. -/
def colIdx (r : SRel) (name : String) : ℕ := r.names.indexOf name

/-- A row's value in column `i` (`NULL` when the row is too short). -/
def rowVal (row : List SQLVal) (i : ℕ) : SQLVal := row.getD i .null

/-- SQL `MAX` over a column: ignores `NULL`s, `NULL` on an empty set.  The
`clean_salary` column only ever holds numbers and `NULL`s, so non-numeric
values are ignored. -/
def sqlMax (vs : List SQLVal) : SQLVal :=
  match vs.filterMap (fun v => match v with | .num q => some q | _ => none) with
  | [] => .null
  | q :: qs => .num (qs.foldl max q)

/-- SQL `AVG` over a column: mean of the non-`NULL` numbers, `NULL` on an
empty set. -/
def sqlAvg (vs : List SQLVal) : SQLVal :=
  match vs.filterMap (fun v => match v with | .num q => some q | _ => none) with
  | [] => .null
  | q :: qs => .num ((q :: qs).sum / (q :: qs).length)

/-- `SELECT location, seniority_level, MAX(clean_salary) FROM jobs GROUP BY
location, seniority_level` — all groups, in scan order, no `ORDER BY`. -/
def groupMaxByLocSen (r : SRel) : List ((SQLVal × SQLVal) × SQLVal) :=
  let iL := colIdx r "location"
  let iS := colIdx r "seniority_level"
  let iC := colIdx r "clean_salary"
  (distincts (r.rows.map (fun row => (rowVal row iL, rowVal row iS)))).map
    (fun k => (k, sqlMax
      ((r.rows.filter (fun row => (rowVal row iL, rowVal row iS) = k)).map
        (fun row => rowVal row iC))))

/-- The first report query with its `LIMIT 5`: the first five groups in scan
order — there is no `ORDER BY`, so these are not the five largest maxima. -/
def query1 (r : SRel) : List ((SQLVal × SQLVal) × SQLVal) :=
  (groupMaxByLocSen r).take 5

/-- `SELECT seniority_level, AVG(clean_salary) FROM jobs GROUP BY
seniority_level` — the second report query, no limit. -/
def query2 (r : SRel) : List (SQLVal × SQLVal) :=
  let iS := colIdx r "seniority_level"
  let iC := colIdx r "clean_salary"
  (distincts (r.rows.map (fun row => rowVal row iS))).map
    (fun k => (k, sqlAvg
      ((r.rows.filter (fun row => rowVal row iS = k)).map
        (fun row => rowVal row iC))))

/-- `SELECT location, COUNT(*) FROM jobs GROUP BY location` — all groups in
scan order. -/
def groupCountByLoc (r : SRel) : List (SQLVal × ℕ) :=
  let iL := colIdx r "location"
  (distincts (r.rows.map (fun row => rowVal row iL))).map
    (fun k => (k, (r.rows.filter (fun row => rowVal row iL = k)).length))

/-- The third report query with its `LIMIT 5`: again no `ORDER BY`, so these
are the first five locations in scan order, not the five most frequent. -/
def query3 (r : SRel) : List (SQLVal × ℕ) :=
  (groupCountByLoc r).take 5

/-- One value as `str(row)` renders it inside the report (exact Python
`repr` spelling is irrelevant to every property proved here; what matters is
that rendering is a pure function of the value). -/
def renderVal : SQLVal → String
  | .null => "None"
  | .num q => toString q
  | .text s => s

/-- The text `run_sql_queries` writes: the three header lines and one line
per result row of the three queries. -/
def renderReport (r : SRel) : String :=
  "--- Топ-5 зарплат по локациям и seniority ---\n" ++
    String.join ((query1 r).map (fun g =>
      "(" ++ renderVal g.1.1 ++ ", " ++ renderVal g.1.2 ++ ", " ++
        renderVal g.2 ++ ")\n")) ++
  "\n--- Средняя зарплата по уровням ---\n" ++
    String.join ((query2 r).map (fun g =>
      "(" ++ renderVal g.1 ++ ", " ++ renderVal g.2 ++ ")\n")) ++
  "\n--- Количество вакансий по локациям ---\n" ++
    String.join ((query3 r).map (fun g =>
      "(" ++ renderVal g.1 ++ ", " ++ toString g.2 ++ ")\n"))

/-- The externally visible state the pipeline mutates: the `jobs` relation
inside the SQLite file and the content of the text artifact
(`job_output.txt`). -/
structure DBState where
  jobs : Option SRel
  artifact : Option String
deriving DecidableEq, Repr

/-- `create_database`: `DROP TABLE IF EXISTS jobs` discards whatever relation
was stored, then the table is recreated from the cleaned frame alone. -/
def create_database (s : DBState) (t : Table) : DBState :=
  let afterDrop : DBState := { s with jobs := none }
  { afterDrop with jobs := some (buildRel t) }

/-- `run_sql_queries`: `open(out_file, "w")` truncates, so the artifact
becomes exactly the rendered report, whatever it held before.  A missing
`jobs` table would raise `OperationalError` (unreachable in the pipeline,
which always creates it first); that is modelled as an empty artifact. -/
def run_sql_queries (s : DBState) : DBState :=
  { s with artifact := some (match s.jobs with
      | some r => renderReport r
      | none => "") }

/-- `str(val)` for the f-string interpolation of
`split_table_by_column_sql`. -/
def pyStr : SQLVal → String
  | .null => "None"
  | .num q => toString q
  | .text s => s

/-- Whether a row's value satisfies `column = '<lit>'` for the interpolated
literal: `NULL` compares to nothing; `TEXT` compares byte-for-byte
(case-sensitive `BINARY` collation); a numeric value matches exactly when the
literal is its own rendering (numeric affinity converts the literal back to
the number, and the rendering round-trips). -/
def litMatch (v : SQLVal) (lit : String) : Bool :=
  match v with
  | .null => false
  | .text s => s == lit
  | .num q => toString q == lit

/-- Failures of `split_table_by_column_sql`: an unknown column name, or a
distinct value whose rendering contains a quote character, which corrupts the
interpolated `WHERE {column}='{val}'` filter (`sqlite3.OperationalError`). -/
inductive SplitError where
  | noSuchColumn : SplitError
  | malformedQuery : SplitError
deriving DecidableEq, Repr

/-- `split_table_by_column_sql`: fetch the column's distinct values, then for
each value build the sub-table of rows the interpolated filter matches,
keyed by the value. -/
def split_table_by_column_sql (r : SRel) (column : String) :
    Except SplitError (List (SQLVal × SRel)) :=
  if ¬ column ∈ r.names then .error .noSuchColumn
  else
    let i := colIdx r column
    let values := distincts (r.rows.map (fun row => rowVal row i))
    if values.any (fun v => (pyStr v).data.any (fun c => c = Char.ofNat 39)) then
      .error .malformedQuery
    else
      .ok (values.map (fun v =>
        (v, { names := r.names
              rows := r.rows.filter (fun row => litMatch (rowVal row i) (pyStr v)) })))

/-- Rows whose value in the column is non-`NULL` `TEXT` without a quote
character: the regime in which the interpolated filter behaves as an exact
match. -/
def quoteFreeText : SQLVal → Bool
  | .text s => ¬ s.data.any (fun c => c = Char.ofNat 39)
  | _ => false

/-- Whether a value is a number strictly below `q` (decidable phrasing used
to state that every listed aggregate is beaten by the omitted group's). -/
def numLt (v : SQLVal) (q : ℚ) : Bool :=
  match v with
  | .num p => decide (p < q)
  | _ => false

/-! ### Concrete relations used as witnesses and counterexamples -/

/-- Seven rows over six locations, inserted in ascending key order: the
group and the location with the largest aggregate come last (`z`), beyond
the reach of `LIMIT 5`. -/
def relLimit : SRel :=
  { names := ["location", "seniority_level", "clean_salary"]
    rows := [[.text "a", .text "x", .num 1],
             [.text "b", .text "x", .num 2],
             [.text "c", .text "x", .num 3],
             [.text "d", .text "x", .num 4],
             [.text "e", .text "x", .num 5],
             [.text "z", .text "x", .num 100],
             [.text "z", .text "y", .num 100]] }

/-- A relation whose `location` column holds a `NULL`: `SELECT DISTINCT`
yields the `NULL` as a distinct value, but `WHERE location='None'` matches
no row. -/
def relNull : SRel :=
  { names := ["location"]
    rows := [[.null], [.text "a"]] }

/-- A quote-free all-text split column with three distinct values. -/
def relSplit : SRel :=
  { names := ["location", "clean_salary"]
    rows := [[.text "a", .num 1],
             [.text "b", .num 2],
             [.text "a", .num 3]] }

/-- A table whose `salary` column is entirely missing (so `create_database`
drops it) and which carries a `clean_salary` column. -/
def tblSalaryAllNull : Table :=
  { nRows := 1
    cols := [("salary", [.null]),
             ("clean_salary", [.float 5]),
             ("location", [.str "x"])] }

/-! ### Equivalence of the two tokenizers -/

theorem findTokensF_nil (n : ℕ) : findTokensF n [] = [] := by
  cases n <;> rfl

theorem findTokensF_congr :
    ∀ (n m : ℕ) (l : List Char), l.length ≤ n → l.length ≤ m →
      findTokensF n l = findTokensF m l := by
  intro n
  induction n with
  | zero =>
    intro m l hn _
    rw [List.length_eq_zero.mp (Nat.le_zero.mp hn), findTokensF_nil,
      findTokensF_nil]
  | succ n ih =>
    intro m l hn hm
    cases l with
    | nil => rw [findTokensF_nil, findTokensF_nil]
    | cons c rest =>
      cases m with
      | zero => exact absurd hm (by simp)
      | succ m =>
        rw [findTokensF, findTokensF]
        by_cases h : c.isDigit = true
        · rw [if_pos h, if_pos h,
            ih m (rest.dropWhile tokChar)
              (le_trans (List.dropWhile_sublist (l := rest) tokChar).length_le
                (Nat.le_of_succ_le_succ hn))
              (le_trans (List.dropWhile_sublist (l := rest) tokChar).length_le
                (Nat.le_of_succ_le_succ hm))]
        · rw [if_neg h, if_neg h,
            ih m rest (Nat.le_of_succ_le_succ hn) (Nat.le_of_succ_le_succ hm)]

theorem findTokens_cons (c : Char) (rest : List Char) :
    findTokens (c :: rest) =
      if c.isDigit then
        (c :: rest.takeWhile tokChar) :: findTokens (rest.dropWhile tokChar)
      else findTokens rest := by
  show findTokensF (rest.length + 1) (c :: rest) = _
  rw [findTokensF]
  by_cases h : c.isDigit = true
  · rw [if_pos h, if_pos h,
      findTokensF_congr rest.length (rest.dropWhile tokChar).length
        (rest.dropWhile tokChar)
        (List.dropWhile_sublist (l := rest) tokChar).length_le (le_refl _)]
    rfl
  · rw [if_neg h, if_neg h]
    rfl

theorem specScan_some (t : List Char) (l : List Char) :
    specScan (some t) l =
      (t ++ l.takeWhile tokChar) :: specScan none (l.dropWhile tokChar) := by
  induction l generalizing t with
  | nil => simp [specScan]
  | cons c rest ih =>
    by_cases h : tokChar c = true
    · rw [specScan, if_pos h, ih, List.takeWhile_cons, List.dropWhile_cons]
      simp [h]
    · rw [specScan, if_neg h, List.takeWhile_cons, List.dropWhile_cons]
      simp [h]

theorem specScan_none_eq_findTokens_aux (n : ℕ) :
    ∀ l : List Char, l.length ≤ n → specScan none l = findTokens l := by
  induction n with
  | zero =>
    intro l hl
    rw [List.length_eq_zero.mp (Nat.le_zero.mp hl), specScan]
    rfl
  | succ n ih =>
    intro l hl
    match l with
    | [] => rw [specScan]; rfl
    | c :: rest =>
      by_cases h : c.isDigit = true
      · rw [specScan, if_pos h, specScan_some, findTokens_cons, if_pos h,
          ih (rest.dropWhile tokChar)
            (le_trans (List.dropWhile_sublist (l := rest) tokChar).length_le
              (Nat.le_of_succ_le_succ hl))]
        rfl
      · rw [specScan, if_neg h, findTokens_cons, if_neg h,
          ih rest (Nat.le_of_succ_le_succ hl)]

theorem specTokens_eq_findTokens (s : String) :
    specTokens s = findTokens s.data :=
  specScan_none_eq_findTokens_aux s.data.length s.data (le_refl _)

/-- C1: for every input value, `clean_salary` computes exactly the spec's
algorithm (absent for missing or non-string input, else the mean of the
comma-stripped integer parses of all maximal digit-and-comma runs, absent
when no run exists), and in particular `clean_salary("$40,000") = 40000.0`,
`clean_salary("40000-50000") = 45000.0`, `clean_salary("n/a")` is absent and
`clean_salary(None)` is absent. -/
theorem C1_clean_salary_matches_spec :
    (∀ v : PValue, clean_salary v = spec_clean_salary v) ∧
    clean_salary (.str "$40,000") = some 40000 ∧
    clean_salary (.str "40000-50000") = some 45000 ∧
    clean_salary (.str "n/a") = none ∧
    clean_salary .null = none := by
  refine ⟨fun v => ?_,
    by simp [clean_salary, findTokens, findTokensF, parseTok, tokChar, List.mapM.loop],
    by
      simp [clean_salary, findTokens, findTokensF, parseTok, tokChar, List.mapM.loop]
      norm_num,
    by simp [clean_salary, findTokens, findTokensF, parseTok, tokChar, List.mapM.loop],
    rfl⟩
  match v with
  | .null => rfl
  | .int _ => rfl
  | .float _ => rfl
  | .str s => rw [clean_salary, spec_clean_salary, specTokens_eq_findTokens]

theorem mean_cast_nonneg (ns : List ℕ) :
    0 ≤ ((ns.map (fun n : ℕ => (n : ℚ))).sum / ns.length : ℚ) := by
  apply div_nonneg _ (Nat.cast_nonneg ns.length)
  induction ns with
  | nil => simp
  | cons a t ih =>
    rw [List.map_cons, List.sum_cons]
    exact add_nonneg (Nat.cast_nonneg a) ih

/-- C9: whenever `clean_salary` returns a number rather than absent, that
number is non-negative — the regex extracts unsigned digit runs, so the mean
of the parsed integers is always ≥ 0. -/
theorem C9_clean_salary_nonneg (v : PValue) (q : ℚ)
    (h : clean_salary v = some q) : 0 ≤ q := by
  match v with
  | .null => exact absurd h (by simp [clean_salary])
  | .int _ => exact absurd h (by simp [clean_salary])
  | .float _ => exact absurd h (by simp [clean_salary])
  | .str s =>
    rw [clean_salary] at h
    split at h
    · exact absurd h (by simp)
    · rename_i htoks
      revert h
      split
      · intro h
        exact absurd h (by simp)
      · rename_i ns hns
        intro h
        cases h with
        | refl => exact mean_cast_nonneg ns

/-- C9 witness: the theorem applied at the concrete input `"$40,000"`,
whose cleaned salary is `40000`. -/
theorem C9_clean_salary_nonneg_witness : (0 : ℚ) ≤ 40000 :=
  C9_clean_salary_nonneg (.str "$40,000") 40000
    (by simp [clean_salary, findTokens, findTokensF, parseTok, tokChar, List.mapM.loop])

/-! ### C3, C6, C7, C10: `preprocess_data` -/

/-- C3: for every non-empty table, pruning keeps exactly the columns whose
missing fraction is at most 0.90 (dropping those strictly above), and the
kept columns form a sublist of the originals, so their relative order is
preserved. -/
theorem C3_pruning (t : Table) (h : 0 < t.nRows) :
    List.Sublist (pruneColumns t).cols t.cols ∧
    (pruneColumns t).nRows = t.nRows ∧
    ∀ c ∈ t.cols,
      (c ∈ (pruneColumns t).cols ↔
        ¬ ((nullCount c.2 : ℚ) / (t.nRows : ℚ) > 9 / 10)) := by
  refine ⟨List.filter_sublist _, rfl, fun c hc => ?_⟩
  rw [pruneColumns]
  simp [List.mem_filter, hc, dropCol]

/-- C3 witness: the pruning theorem applied to the concrete 2-row table
`tblPrune` (whose column `a` is 100% missing and column `b` 50%). -/
theorem C3_pruning_witness :
    List.Sublist (pruneColumns tblPrune).cols tblPrune.cols ∧
    (pruneColumns tblPrune).nRows = tblPrune.nRows ∧
    ∀ c ∈ tblPrune.cols,
      (c ∈ (pruneColumns tblPrune).cols ↔
        ¬ ((nullCount c.2 : ℚ) / (tblPrune.nRows : ℚ) > 9 / 10)) :=
  C3_pruning tblPrune (by decide)

/-- C6: the required-column check runs on the pruned table; `preprocess_data`
fails with `KeyError`/`MissingColumnsError` naming, in `required_columns`
order, exactly the columns among `salary`, `seniority_level`, `location`
absent after pruning, if and only if at least one of them is absent. -/
theorem C6_required_columns (t : Table) :
    (requiredMissing (pruneColumns t) ≠ [] →
      preprocess_data t =
        .error (.missingColumns (requiredMissing (pruneColumns t)))) ∧
    (requiredMissing (pruneColumns t) = [] →
      ∀ ms, preprocess_data t ≠ .error (.missingColumns ms)) := by
  constructor
  · intro h
    simp [preprocess_data, h]
  · intro h ms
    simp only [preprocess_data, h]
    rw [if_neg (by simp)]
    split
    · simp
    · split <;> simp

/-- C6 witness: on the concrete table lacking `location`, the cleaner fails
naming exactly `location`. -/
theorem C6_required_columns_witness :
    preprocess_data tblNoLocation =
      .error (.missingColumns ["location"]) := by
  have h := (C6_required_columns tblNoLocation).1 (by decide)
  have e : requiredMissing (pruneColumns tblNoLocation) = ["location"] := by
    decide
  rw [e] at h
  exact h

theorem find?_map_setCol (n1 n2 : String) (vs : List PValue)
    (h : ¬ n2 = n1) :
    ∀ l : List (String × List PValue),
      (l.map (fun c => if c.1 == n1 then (n1, vs) else c)).find?
          (fun c => c.1 == n2)
        = l.find? (fun c => c.1 == n2) := by
  have hn12 : (n1 == n2) = false :=
    beq_eq_false_iff_ne.mpr (fun he => h he.symm)
  intro l
  induction l with
  | nil => rfl
  | cons c l ih =>
    by_cases hc : (c.1 == n1) = true
    · have hc1 : c.1 = n1 := by simpa using hc
      rw [List.map_cons, List.find?_cons, List.find?_cons]
      rw [if_pos hc]
      simp only [hn12, hc1]
      exact ih
    · rw [List.map_cons, List.find?_cons, List.find?_cons, if_neg hc]
      cases c.1 == n2
      · exact ih
      · rfl

theorem getCol_setCol_ne (t : Table) (n1 n2 : String) (vs : List PValue)
    (h : ¬ n2 = n1) :
    getCol (setCol t n1 vs) n2 = getCol t n2 := by
  have hn12 : (n1 == n2) = false :=
    beq_eq_false_iff_ne.mpr (fun he => h he.symm)
  rw [getCol, getCol, setCol]
  by_cases hany : t.cols.any (fun c => c.1 == n1) = true
  · rw [if_pos hany, find?_map_setCol n1 n2 vs h]
  · rw [if_neg hany]
    have happ : ∀ l : List (String × List PValue),
        (l ++ [(n1, vs)]).find? (fun c => c.1 == n2)
          = l.find? (fun c => c.1 == n2) := by
      intro l
      induction l with
      | nil => simp [List.find?, hn12]
      | cons c l ih =>
        rw [List.cons_append, List.find?_cons, List.find?_cons]
        cases c.1 == n2
        · exact ih
        · rfl
    rw [happ]

/-- C7 counterexample: `tblIntSeniority` passes the required-column check
and its single salary `"€100"` cleans to a number, yet cleaning does not
continue — its `seniority_level` column is numeric (`int64`), so pandas'
`.str` accessor raises `AttributeError` and `preprocess_data` fails with the
out-of-taxonomy `strAccessorError` instead of returning a table. -/
theorem C7_counterexample :
    requiredMissing (pruneColumns tblIntSeniority) = [] ∧
    (cleanSalaryCol (pruneColumns tblIntSeniority)).all
      (fun v => v.isna) ≠ true ∧
    preprocess_data tblIntSeniority = .error .strAccessorError := by
  refine ⟨by decide, by decide, by decide⟩

/-- C7 amended: once the required-column check passes, `preprocess_data`
fails with `ValueError`/`AllSalariesMissingError` iff every derived
`clean_salary` value is absent; when at least one row yields a number that
error is never raised, and cleaning returns a table iff the pruned
`seniority_level` column has `object` dtype (holds at least one string) —
otherwise pandas' `.str` accessor raises `AttributeError`. -/
theorem C7_all_salaries_missing (t : Table)
    (h : requiredMissing (pruneColumns t) = []) :
    (preprocess_data t = .error .allSalariesMissing ↔
      (cleanSalaryCol (pruneColumns t)).all (fun v => v.isna) = true) ∧
    ((cleanSalaryCol (pruneColumns t)).all (fun v => v.isna) ≠ true →
      (inferDtype ((getCol (pruneColumns t) "seniority_level").getD []) =
          .object → (preprocess_data t).isOk = true) ∧
      (¬ inferDtype ((getCol (pruneColumns t) "seniority_level").getD []) =
          .object → preprocess_data t = .error .strAccessorError)) := by
  have hsen : getCol (setCol (pruneColumns t) "clean_salary"
      (cleanSalaryCol (pruneColumns t))) "seniority_level"
      = getCol (pruneColumns t) "seniority_level" :=
    getCol_setCol_ne _ _ _ _ (by decide)
  constructor
  · by_cases hc :
      (cleanSalaryCol (pruneColumns t)).all (fun v => v.isna) = true
    · simp [preprocess_data, h, hc]
    · simp only [preprocess_data, h]
      rw [if_neg (by simp), if_neg hc]
      refine iff_of_false ?_ hc
      split <;> simp
  · intro hc
    constructor
    · intro hobj
      simp only [preprocess_data, h]
      rw [if_neg (by simp), if_neg hc, hsen, if_pos hobj]
      rfl
    · intro hobj
      simp only [preprocess_data, h]
      rw [if_neg (by simp), if_neg hc, hsen, if_neg hobj]

/-- C7 amendment witness: the amended statement applied at two concrete
inputs — `tblPrune`, whose string-valued seniority column lets cleaning
return a table, and `tblIntSeniority`, whose numeric seniority column makes
it fail with the accessor error. -/
theorem C7_all_salaries_missing_witness :
    (preprocess_data tblPrune).isOk = true ∧
    preprocess_data tblIntSeniority = .error .strAccessorError :=
  ⟨((C7_all_salaries_missing tblPrune (by decide)).2 (by decide)).1
      (by decide),
   ((C7_all_salaries_missing tblIntSeniority (by decide)).2 (by decide)).2
      (by decide)⟩

/-- C10 counterexample: on a zero-row table with the three required columns,
the pruning division is `numpy.int64(0)/0`, which yields `nan` with a
`RuntimeWarning` instead of raising; `nan > 0.9` is false, so no column is
dropped and the cleaner fails with `AllSalariesMissingError` — not with any
division-by-zero error, contrary to the claim. -/
theorem C10_counterexample :
    pruneColumns tblZeroRows = tblZeroRows ∧
    preprocess_data tblZeroRows = .error .allSalariesMissing := by
  constructor <;> decide

/-- C10 amended: for every well-formed zero-row table, the `0/0` missing
fraction compares false against 0.9, so pruning drops nothing, and when the
required columns are present the run ends with `AllSalariesMissingError`
(an in-taxonomy error), not a division failure. -/
theorem C10_zero_rows (t : Table) (h0 : t.nRows = 0)
    (hwf : ∀ c ∈ t.cols, c.2 = ([] : List PValue)) :
    pruneColumns t = t ∧
    (requiredMissing t = [] →
      preprocess_data t = .error .allSalariesMissing) := by
  have hprune : pruneColumns t = t := by
    rw [pruneColumns]
    have hf : t.cols.filter (fun c => ¬ dropCol t.nRows c.2) = t.cols := by
      rw [List.filter_eq_self]
      intro c _
      simp [dropCol, h0]
      norm_num
    rw [hf]
  refine ⟨hprune, fun hreq => ?_⟩
  have hmem : "salary" ∈ colNames t := by
    by_contra hn
    have : "salary" ∈ requiredMissing t := by
      simp [requiredMissing, requiredColumns, hn]
    rw [hreq] at this
    exact absurd this (List.not_mem_nil _)
  have hfindSome : (t.cols.find? (fun c => c.1 == "salary")).isSome := by
    rw [List.find?_isSome]
    obtain ⟨c, hc, he⟩ := List.mem_map.mp hmem
    exact ⟨c, hc, by simp [he]⟩
  obtain ⟨c, hfind⟩ := Option.isSome_iff_exists.mp hfindSome
  have hsal : getCol t "salary" = some [] := by
    rw [getCol, hfind]
    simp [hwf c (List.mem_of_find?_eq_some hfind)]
  simp [preprocess_data, hprune, hreq, cleanSalaryCol, hsal]

/-- C10 amendment witness: the amended statement applied to the concrete
zero-row table with the three required columns. -/
theorem C10_zero_rows_witness :
    pruneColumns tblZeroRows = tblZeroRows ∧
    (requiredMissing tblZeroRows = [] →
      preprocess_data tblZeroRows = .error .allSalariesMissing) :=
  C10_zero_rows tblZeroRows (by decide) (by decide)

/-! ### C4: schema inference; C2: the LIMIT-without-ORDER-BY queries;
C8: pipeline idempotence -/

/-- C4 counterexample: in the column `[1, missing]` every present value is an
integer, yet pandas holds it as `float64` (a missing value forces the
floating dtype), so `create_database` declares `REAL`, not `INTEGER` as the
claim would have it. -/
theorem C4_counterexample :
    (∀ v ∈ [PValue.int 1, PValue.null], v.isna = true ∨ v.isInt = true) ∧
    colTypeOf [PValue.int 1, PValue.null] = SqlType.real ∧
    ¬ colTypeOf [PValue.int 1, PValue.null] = SqlType.integer := by
  decide

/-- C4 amended: a column maps to `INTEGER` iff it is non-empty, complete and
all-integer; to `TEXT` iff it holds a string; to `REAL` otherwise (no
strings, and either empty, or holding a missing value or a float).  The
`salary` column is dropped before schema inference exactly when present and
all-missing, and a `clean_salary` column always survives into the schema. -/
theorem C4_schema_inference :
    (∀ vs : List PValue,
      (colTypeOf vs = .integer ↔
        ¬ vs = [] ∧ vs.all (fun v => v.isInt) = true) ∧
      (colTypeOf vs = .text ↔ vs.any (fun v => v.isStr) = true) ∧
      (colTypeOf vs = .real ↔ vs.any (fun v => v.isStr) = false ∧
        ¬ (¬ vs = [] ∧ vs.all (fun v => v.isInt) = true))) ∧
    (∀ t vs, getCol t "salary" = some vs → vs.all (fun v => v.isna) = true →
      ¬ "salary" ∈ (jobsSchema t).map Prod.fst) ∧
    (∀ t vs, getCol t "salary" = some vs →
      ¬ vs.all (fun v => v.isna) = true →
      (jobsSchema t).map Prod.fst = colNames t) ∧
    (∀ t, getCol t "salary" = none →
      (jobsSchema t).map Prod.fst = colNames t) ∧
    (∀ t, "clean_salary" ∈ colNames t →
      "clean_salary" ∈ (jobsSchema t).map Prod.fst) := by
  refine ⟨fun vs => ?_, fun t vs hget hall => ?_, fun t vs hget hna => ?_,
    fun t hget => ?_, fun t hmem => ?_⟩
  · by_cases h1 : vs.any (fun v => v.isStr) = true
    · have hni : ¬ (¬ vs = [] ∧ vs.all (fun v => v.isInt) = true) := by
        rintro ⟨-, hint⟩
        obtain ⟨v, hv, hstr⟩ := List.any_eq_true.mp h1
        have := List.all_eq_true.mp hint v hv
        cases v <;> simp_all [PValue.isStr, PValue.isInt]
      have he : colTypeOf vs = SqlType.text := by
        simp [colTypeOf, inferDtype, sqlTypeOf, h1]
      rw [he]
      refine ⟨iff_of_false (by simp) hni, iff_of_true rfl h1,
        iff_of_false (by simp) ?_⟩
      rintro ⟨hf, -⟩
      rw [h1] at hf
      cases hf
    · by_cases h2 : ¬ vs = [] ∧ vs.all (fun v => v.isInt) = true
      · have he : colTypeOf vs = SqlType.integer := by
          rw [colTypeOf, inferDtype, if_neg h1, if_pos h2]
          rfl
        rw [he]
        refine ⟨iff_of_true rfl h2, iff_of_false (by simp) h1,
          iff_of_false (by simp) ?_⟩
        rintro ⟨-, hn⟩
        exact hn h2
      · have he : colTypeOf vs = SqlType.real := by
          rw [colTypeOf, inferDtype, if_neg h1, if_neg h2]
          rfl
        rw [he]
        exact ⟨iff_of_false (by simp) h2, iff_of_false (by simp) h1,
          iff_of_true rfl ⟨by simpa using h1, h2⟩⟩
  · simp only [jobsSchema, dropAllNullSalary, hget, hall, if_true]
    intro hmem
    simp only [List.map_map, List.mem_map, Function.comp] at hmem
    obtain ⟨c, hc, hfst⟩ := hmem
    have := (List.mem_filter.mp hc).2
    simp at this
    exact this hfst
  · simp only [jobsSchema, dropAllNullSalary, hget, hna, if_neg, colNames,
      List.map_map]
    rfl
  · simp only [jobsSchema, dropAllNullSalary, hget, colNames, List.map_map]
    rfl
  · rw [jobsSchema]
    match hget : getCol t "salary" with
    | none =>
      rw [dropAllNullSalary, hget, List.map_map]
      exact hmem
    | some vs =>
      by_cases hall : vs.all (fun v => v.isna) = true
      · simp only [dropAllNullSalary, hget, hall, if_true]
        obtain ⟨c, hc, hfst⟩ := List.mem_map.mp hmem
        simp only [List.map_map, List.mem_map, Function.comp]
        refine ⟨c, List.mem_filter.mpr ⟨hc, ?_⟩, hfst⟩
        simp [hfst]
      · simp only [dropAllNullSalary, hget, hall, if_false, List.map_map]
        exact hmem

/-- C4 amendment witness: the amended statement applied to a concrete
all-integer column and to the concrete table `tblSalaryAllNull`, whose
all-missing `salary` column is dropped while `clean_salary` is kept. -/
theorem C4_schema_inference_witness :
    colTypeOf [PValue.int 1] = SqlType.integer ∧
    ¬ "salary" ∈ (jobsSchema tblSalaryAllNull).map Prod.fst ∧
    "clean_salary" ∈ (jobsSchema tblSalaryAllNull).map Prod.fst :=
  ⟨(C4_schema_inference.1 [PValue.int 1]).1.mpr (by decide),
   C4_schema_inference.2.1 tblSalaryAllNull [PValue.null] (by decide)
     (by decide),
   C4_schema_inference.2.2.2.2 tblSalaryAllNull (by decide)⟩

/-- C2: on the concrete relation `relLimit` the first report block is the
first five `(location, seniority_level)` groups in scan order and the third
block the first five locations, because both queries use `LIMIT 5` with no
`ORDER BY`; the group `("z","x")` with the strictly largest
`MAX(clean_salary)` (100, every included maximum being below it) and the
location `"z"` with the strictly largest row count (2, every included count
being below it) are absent from the blocks — the code's own report headers
announce top-5 results, which these are not. -/
theorem C2_limit_without_order :
    query1 relLimit =
      [((.text "a", .text "x"), .num 1), ((.text "b", .text "x"), .num 2),
       ((.text "c", .text "x"), .num 3), ((.text "d", .text "x"), .num 4),
       ((.text "e", .text "x"), .num 5)] ∧
    ((SQLVal.text "z", SQLVal.text "x"), SQLVal.num 100) ∈
      groupMaxByLocSen relLimit ∧
    (∀ g ∈ groupMaxByLocSen relLimit,
      g.1 ≠ (SQLVal.text "z", SQLVal.text "x") →
      g.1 ≠ (SQLVal.text "z", SQLVal.text "y") → numLt g.2 100 = true) ∧
    (∀ g ∈ query1 relLimit, g.1.1 ≠ SQLVal.text "z") ∧
    query3 relLimit =
      [(.text "a", 1), (.text "b", 1), (.text "c", 1), (.text "d", 1),
       (.text "e", 1)] ∧
    (SQLVal.text "z", 2) ∈ groupCountByLoc relLimit ∧
    (∀ g ∈ groupCountByLoc relLimit, g.1 ≠ SQLVal.text "z" → g.2 < 2) ∧
    (∀ g ∈ query3 relLimit, g.1 ≠ SQLVal.text "z") := by
  decide

/-- C8: the pipeline's output is independent of the prior store and artifact
state — `create_database` drops and recreates `jobs` wholesale and
`run_sql_queries` truncates the artifact — so two runs on the same cleaned
input write byte-identical reports and relations of identical row and column
counts; moreover the artifact is exactly the fresh report, never an
append. -/
theorem C8_pipeline_idempotent (s1 s2 : DBState) (t : Table) :
    (run_sql_queries (create_database s1 t)).artifact =
      (run_sql_queries (create_database s2 t)).artifact ∧
    (run_sql_queries (create_database s1 t)).artifact =
      some (renderReport (buildRel t)) ∧
    ((run_sql_queries (create_database s1 t)).jobs.map
        (fun r => (r.rows.length, r.names.length))) =
      ((run_sql_queries (create_database s2 t)).jobs.map
        (fun r => (r.rows.length, r.names.length))) :=
  ⟨rfl, rfl, rfl⟩

/-! ### C5: `split_table_by_column_sql` -/

theorem distinctsF_nil {a : Type} [DecidableEq a] (n : ℕ) :
    distinctsF n ([] : List a) = [] := by
  cases n <;> rfl

theorem distinctsF_congr {a : Type} [DecidableEq a] :
    ∀ (n m : ℕ) (l : List a), l.length ≤ n → l.length ≤ m →
      distinctsF n l = distinctsF m l := by
  intro n
  induction n with
  | zero =>
    intro m l hn _
    rw [List.length_eq_zero.mp (Nat.le_zero.mp hn), distinctsF_nil,
      distinctsF_nil]
  | succ n ih =>
    intro m l hn hm
    cases l with
    | nil => rw [distinctsF_nil, distinctsF_nil]
    | cons x t =>
      cases m with
      | zero => exact absurd hm (by simp)
      | succ m =>
        rw [distinctsF, distinctsF,
          ih m (t.filter (fun y => ¬ y = x))
            (le_trans (List.length_filter_le _ t) (Nat.le_of_succ_le_succ hn))
            (le_trans (List.length_filter_le _ t) (Nat.le_of_succ_le_succ hm))]

theorem distincts_cons {a : Type} [DecidableEq a] (x : a) (t : List a) :
    distincts (x :: t) = x :: distincts (t.filter (fun y => ¬ y = x)) := by
  show distinctsF (t.length + 1) (x :: t) = _
  rw [distinctsF,
    distinctsF_congr t.length (t.filter (fun y => ¬ y = x)).length
      (t.filter (fun y => ¬ y = x)) (List.length_filter_le _ t) (le_refl _)]
  rfl

theorem distincts_subset {a : Type} [DecidableEq a] :
    ∀ (n : ℕ) (l : List a), l.length ≤ n → ∀ x ∈ distincts l, x ∈ l := by
  intro n
  induction n with
  | zero =>
    intro l hn x hx
    rw [List.length_eq_zero.mp (Nat.le_zero.mp hn)] at hx ⊢
    rw [distincts, distinctsF_nil] at hx
    exact absurd hx (List.not_mem_nil x)
  | succ n ih =>
    intro l hn x hx
    cases l with
    | nil =>
      rw [distincts, distinctsF_nil] at hx
      exact absurd hx (List.not_mem_nil x)
    | cons y t =>
      rw [distincts_cons] at hx
      rcases List.mem_cons.mp hx with h | h
      · exact h ▸ List.mem_cons_self y t
      · have hmem := ih (t.filter (fun z => ¬ z = y))
          (le_trans (List.length_filter_le _ t) (Nat.le_of_succ_le_succ hn))
          x h
        exact List.mem_cons_of_mem y (List.mem_of_mem_filter hmem)

theorem distincts_partition {a b : Type} [DecidableEq b] (key : a → b) :
    ∀ (n : ℕ) (l : List a), l.length ≤ n →
      ((distincts (l.map key)).map
        (fun k => (l.filter (fun v => key v = k)).length)).sum = l.length := by
  intro n
  induction n with
  | zero =>
    intro l hn
    rw [List.length_eq_zero.mp (Nat.le_zero.mp hn)]
    rfl
  | succ n ih =>
    intro l hn
    cases l with
    | nil => rfl
    | cons x t =>
      rw [List.map_cons, distincts_cons, List.map_cons, List.sum_cons]
      have hmf : (t.map key).filter (fun y => ¬ y = key x)
          = (t.filter (fun v => ¬ key v = key x)).map key := by
        rw [List.map_filter]
        rfl
      rw [hmf]
      have hhead : ((x :: t).filter (fun v => key v = key x)).length
          = (t.filter (fun v => key v = key x)).length + 1 := by
        rw [List.filter_cons_of_pos (by simp)]
        simp
      have hcongr : ∀ k ∈ distincts
          ((t.filter (fun v => ¬ key v = key x)).map key),
          ((x :: t).filter (fun v => key v = k)).length
            = ((t.filter (fun v => ¬ key v = key x)).filter
                (fun v => key v = k)).length := by
        intro k hk
        have hk2 : k ∈ (t.filter (fun v => ¬ key v = key x)).map key :=
          distincts_subset _ _ (le_refl _) k hk
        obtain ⟨v0, hv0, hkey0⟩ := List.mem_map.mp hk2
        have hvne : ¬ key v0 = key x := by
          have hf := (List.mem_filter.mp hv0).2
          simpa using hf
        have hkne : ¬ key x = k := fun he => hvne (hkey0 ▸ he.symm ▸ rfl)
        rw [List.filter_cons_of_neg (by simpa using hkne),
          List.filter_filter]
        congr 1
        apply List.filter_congr
        intro v hv
        by_cases hvk : key v = k
        · have hno : ¬ key v = key x := fun he => hkne (he ▸ hvk)
          have hkx : ¬ k = key x := fun he => hkne he.symm
          simp [hvk, hno, hkx]
        · simp [hvk]
      rw [List.map_congr_left hcongr,
        ih (t.filter (fun v => ¬ key v = key x))
          (le_trans (List.length_filter_le _ t) (Nat.le_of_succ_le_succ hn)),
        hhead]
      have hsplit := List.length_eq_length_filter_add (l := t)
        (fun v => decide (key v = key x))
      simp only [decide_not, List.length_cons] at hsplit ⊢
      omega

theorem litMatch_filter_eq (r : SRel) (column : String)
    (hvals : ∀ row ∈ r.rows,
      quoteFreeText (rowVal row (colIdx r column)) = true)
    (v : SQLVal)
    (hv : v ∈ r.rows.map (fun row => rowVal row (colIdx r column))) :
    r.rows.filter
        (fun row => litMatch (rowVal row (colIdx r column)) (pyStr v))
      = r.rows.filter (fun row => rowVal row (colIdx r column) = v) := by
  obtain ⟨row0, hrow0, hkey0⟩ := List.mem_map.mp hv
  have h0 := hvals row0 hrow0
  rw [hkey0] at h0
  apply List.filter_congr
  intro row hrow
  have h1 := hvals row hrow
  cases hrv : rowVal row (colIdx r column) with
  | null => rw [hrv] at h1; simp [quoteFreeText] at h1
  | num q => rw [hrv] at h1; simp [quoteFreeText] at h1
  | text s =>
    cases v with
    | null => simp [quoteFreeText] at h0
    | num q => simp [quoteFreeText] at h0
    | text s2 =>
      by_cases hss : s = s2
      · subst hss
        simp [litMatch, pyStr]
      · simp [litMatch, pyStr, hss]

/-- C5 counterexample: the `location` column of `relNull` holds a `NULL` and
the text `"a"`, so `SELECT DISTINCT` yields two values — but the sub-table
generated for the `NULL` key by `WHERE location='None'` is empty, the
relation's `NULL` row lands in no sub-table, and the sub-tables' row counts
sum to 1 while the relation has 2 rows, refuting the claim. -/
theorem C5_counterexample :
    split_table_by_column_sql relNull "location" =
      .ok [(SQLVal.null, SRel.mk ["location"] []),
           (SQLVal.text "a", SRel.mk ["location"] [[SQLVal.text "a"]])] ∧
    relNull.rows.length = 2 ∧
    ([(SQLVal.null, SRel.mk ["location"] []),
      (SQLVal.text "a", SRel.mk ["location"] [[SQLVal.text "a"]])].map
        (fun p => p.2.rows.length)).sum = 1 ∧
    [SQLVal.null] ∈ relNull.rows := by
  decide

/-- C5 amended: when every value of the chosen column is non-`NULL` text
free of quote characters, the split returns one sub-table per distinct value,
each holding exactly the rows whose column value equals its key (exact,
case-sensitive comparison), and the sub-tables' row counts sum to the
relation's row count.  A `NULL` (or a quoted value) in the column breaks
this, as the counterexample shows. -/
theorem C5_split_partition (r : SRel) (column : String)
    (hcol : column ∈ r.names)
    (hvals : ∀ row ∈ r.rows,
      quoteFreeText (rowVal row (colIdx r column)) = true) :
    ∃ m, split_table_by_column_sql r column = .ok m ∧
      m.map Prod.fst =
        distincts (r.rows.map (fun row => rowVal row (colIdx r column))) ∧
      (∀ p ∈ m, p.2.rows =
        r.rows.filter (fun row => rowVal row (colIdx r column) = p.1)) ∧
      (m.map (fun p => p.2.rows.length)).sum = r.rows.length := by
  have hq : ∀ v ∈ distincts
      (r.rows.map (fun row => rowVal row (colIdx r column))),
      ((pyStr v).data.any (fun c => c = Char.ofNat 39)) = false := by
    intro v hv
    have hv2 : v ∈ r.rows.map (fun row => rowVal row (colIdx r column)) :=
      distincts_subset _ _ (le_refl _) v hv
    obtain ⟨row, hrow, hkey⟩ := List.mem_map.mp hv2
    have h1 := hvals row hrow
    rw [hkey] at h1
    cases v with
    | null => simp [quoteFreeText] at h1
    | num q => simp [quoteFreeText] at h1
    | text s =>
      simp only [quoteFreeText] at h1
      simp only [pyStr, List.any_eq_false]
      intro c hc he
      simp at h1
      exact h1 (of_decide_eq_true he ▸ hc)
  have hany : (distincts
      (r.rows.map (fun row => rowVal row (colIdx r column)))).any
      (fun v => (pyStr v).data.any (fun c => c = Char.ofNat 39)) = false := by
    rw [List.any_eq_false]
    intro v hv
    simp [hq v hv]
  refine ⟨(distincts (r.rows.map (fun row => rowVal row (colIdx r column)))).map
      (fun v => (v, SRel.mk r.names
        (r.rows.filter (fun row =>
          litMatch (rowVal row (colIdx r column)) (pyStr v))))),
    ?_, ?_, ?_, ?_⟩
  · simp only [split_table_by_column_sql]
    rw [if_neg (not_not_intro hcol), hany, if_neg (by simp)]
  · rw [List.map_map]
    exact List.map_id _
  · intro p hp
    obtain ⟨v, hv, he⟩ := List.mem_map.mp hp
    rw [← he]
    exact litMatch_filter_eq r column hvals v
      (distincts_subset _ _ (le_refl _) v hv)
  · rw [List.map_map]
    have hlens : ∀ v ∈ distincts
        (r.rows.map (fun row => rowVal row (colIdx r column))),
        (r.rows.filter
          (fun row => litMatch (rowVal row (colIdx r column))
            (pyStr v))).length
          = (r.rows.filter
              (fun row => rowVal row (colIdx r column) = v)).length := by
      intro v hv
      rw [litMatch_filter_eq r column hvals v
        (distincts_subset _ _ (le_refl _) v hv)]
    calc ((distincts (r.rows.map (fun row => rowVal row (colIdx r column)))).map
          (fun v => (r.rows.filter
            (fun row => litMatch (rowVal row (colIdx r column))
              (pyStr v))).length)).sum
        = ((distincts (r.rows.map
            (fun row => rowVal row (colIdx r column)))).map
          (fun v => (r.rows.filter
            (fun row => rowVal row (colIdx r column) = v)).length)).sum := by
          rw [List.map_congr_left hlens]
      _ = r.rows.length :=
          distincts_partition (fun row => rowVal row (colIdx r column))
            r.rows.length r.rows (le_refl _)

/-- C5 amendment witness: the amended statement applied to the concrete
quote-free all-text relation `relSplit` (three rows, two distinct
locations). -/
theorem C5_split_partition_witness :
    ∃ m, split_table_by_column_sql relSplit "location" = .ok m ∧
      m.map Prod.fst =
        distincts (relSplit.rows.map
          (fun row => rowVal row (colIdx relSplit "location"))) ∧
      (∀ p ∈ m, p.2.rows =
        relSplit.rows.filter
          (fun row => rowVal row (colIdx relSplit "location") = p.1)) ∧
      (m.map (fun p => p.2.rows.length)).sum = relSplit.rows.length :=
  C5_split_partition relSplit "location" (by decide) (by decide)

end JobModule
